import Mathlib

/-!
Verification of the monitor-style resource-coordination core of the
ID1217 concurrent-programming exercises (Homework 4).  Each C monitor is
embedded as a Lean state machine: the shared counters protected by the
monitor mutex become a structure, and every mutex-protected critical
section becomes one atomic step of an inductive step relation (the mutex
serializes the critical sections, so interleavings of whole critical
sections are exactly the behaviours of the program).  C `int`/`long`
counters are modelled as `Int`/`Nat`; no counter in any file approaches
the width of a machine integer.
-/

/-! ### Fuel station (`src/Homework_4/Question_1/fuel_station.c`) -/

namespace Fuel

/-- Shared state of the `FuelStation` monitor: the three counters
protected by `mtx` (`fuel_station.c`, lines 40-51). -/
structure FuelStation where
  available_nitrogen : Int
  available_quantum_fluid : Int
  available_docks : Int
deriving DecidableEq

/-- Configuration constant `MAX_NITROGEN` (line 34). -/
def MAX_NITROGEN : Int := 5000

/-- Configuration constant `MAX_QUANTUM_FLUID` (line 35). -/
def MAX_QUANTUM_FLUID : Int := 2000

/-- Configuration constant `MAX_DOCKING_SPOTS` (line 36). -/
def MAX_DOCKING_SPOTS : Int := 5

/-- Counter part of `fuel_station_init` (lines 56-67): the station starts
with full fuel storage and all docks free. -/
def fuel_station_init : FuelStation :=
  { available_nitrogen := MAX_NITROGEN
    available_quantum_fluid := MAX_QUANTUM_FLUID
    available_docks := MAX_DOCKING_SPOTS }

/-- Admission part of `fs_arrive` (lines 82-91): one iteration of the
wait loop under the lock.  The C thread waits `while (available_docks <= 0)`;
when the guard lets it through it decrements `available_docks`.  The
`Bool` records whether this iteration admitted the vehicle (`false`
corresponds to `pthread_cond_wait`: no mutation). -/
def fs_arrive (fs : FuelStation) : Bool × FuelStation :=
  if fs.available_docks ≤ 0 then (false, fs)
  else (true, { fs with available_docks := fs.available_docks - 1 })

/-- Body of `fs_leave` (lines 96-102): the dock counter is incremented
unconditionally; there is no guard and no assertion in the C code. -/
def fs_leave (fs : FuelStation) : FuelStation :=
  { fs with available_docks := fs.available_docks + 1 }

/-- Admission part of `fs_get_fuel` (lines 107-123): the thread waits
`while (available_nitrogen < requested_nitrogen || available_quantum_fluid <
requested_quantum)`; when the guard lets it through both fuel counters are
decremented in the same critical section. -/
def fs_get_fuel (fs : FuelStation) (requested_nitrogen requested_quantum : Int) :
    Bool × FuelStation :=
  if fs.available_nitrogen < requested_nitrogen ∨
      fs.available_quantum_fluid < requested_quantum then
    (false, fs)
  else
    (true,
      { fs with
        available_nitrogen := fs.available_nitrogen - requested_nitrogen
        available_quantum_fluid := fs.available_quantum_fluid - requested_quantum })

/-- Admission part of `fs_deposit_fuel` (lines 128-145): the thread waits
`while (available_nitrogen + deposit_nitrogen > MAX_NITROGEN ||
available_quantum_fluid + deposit_quantum > MAX_QUANTUM_FLUID)`; when the
guard lets it through both fuel counters are incremented. -/
def fs_deposit_fuel (fs : FuelStation) (deposit_nitrogen deposit_quantum : Int) :
    Bool × FuelStation :=
  if MAX_NITROGEN < fs.available_nitrogen + deposit_nitrogen ∨
      MAX_QUANTUM_FLUID < fs.available_quantum_fluid + deposit_quantum then
    (false, fs)
  else
    (true,
      { fs with
        available_nitrogen := fs.available_nitrogen + deposit_nitrogen
        available_quantum_fluid := fs.available_quantum_fluid + deposit_quantum })

/-- System state: the monitor state plus the number of vehicles currently
holding a dock.  Every `fs_leave` in the program is executed by a vehicle
thread that previously completed `fs_arrive` (see `ordinary_vehicle_func`
and `supply_vehicle_func`, lines 159-212: each trip is
`fs_arrive … fs_leave` in order), so `docked` counts exactly those
vehicles. -/
structure FSSys where
  fs : FuelStation
  docked : Int
deriving DecidableEq

/-- System start state: freshly constructed station, no vehicle docked. -/
def fssys_init : FSSys := { fs := fuel_station_init, docked := 0 }

/-- One critical section of the fuel-station program.  Fuel request and
deposit amounts are nonnegative in the program (`rand`-derived values in
lines 171-203 are all ≥ 0). -/
inductive FSStep : FSSys → FSSys → Prop
  | arrive (s : FSSys) :
      (fs_arrive s.fs).1 = true →
      FSStep s { fs := (fs_arrive s.fs).2, docked := s.docked + 1 }
  | leave (s : FSSys) :
      1 ≤ s.docked →
      FSStep s { fs := fs_leave s.fs, docked := s.docked - 1 }
  | get_fuel (s : FSSys) (rn rq : Int) :
      0 ≤ rn → 0 ≤ rq →
      (fs_get_fuel s.fs rn rq).1 = true →
      FSStep s { s with fs := (fs_get_fuel s.fs rn rq).2 }
  | deposit (s : FSSys) (dn dq : Int) :
      0 ≤ dn → 0 ≤ dq →
      (fs_deposit_fuel s.fs dn dq).1 = true →
      FSStep s { s with fs := (fs_deposit_fuel s.fs dn dq).2 }

/-- Reachability of a fuel-station system state from the start state. -/
def FSReach (s : FSSys) : Prop := Relation.ReflTransGen FSStep fssys_init s

/-- Capacity invariant for the fuel station, as the spec states it:
every dimension satisfies `0 ≤ available ≤ capacity`. -/
def FSInv (s : FSSys) : Prop :=
  0 ≤ s.fs.available_nitrogen ∧ s.fs.available_nitrogen ≤ MAX_NITROGEN ∧
  0 ≤ s.fs.available_quantum_fluid ∧ s.fs.available_quantum_fluid ≤ MAX_QUANTUM_FLUID ∧
  0 ≤ s.fs.available_docks ∧ s.fs.available_docks ≤ MAX_DOCKING_SPOTS

/-- Strengthened invariant used for the induction: additionally the free
docks and the docked vehicles partition the docking spots. -/
def FSInvStrong (s : FSSys) : Prop :=
  FSInv s ∧ 0 ≤ s.docked ∧ s.fs.available_docks + s.docked = MAX_DOCKING_SPOTS

lemma fs_arrive_true_iff (fs : FuelStation) :
    (fs_arrive fs).1 = true ↔ 0 < fs.available_docks := by
  unfold fs_arrive
  split <;> simp <;> omega

lemma fs_arrive_snd_of_true (fs : FuelStation) (h : 0 < fs.available_docks) :
    (fs_arrive fs).2 = { fs with available_docks := fs.available_docks - 1 } := by
  unfold fs_arrive
  rw [if_neg (by omega)]

lemma fs_get_fuel_true_iff (fs : FuelStation) (rn rq : Int) :
    (fs_get_fuel fs rn rq).1 = true ↔
      rn ≤ fs.available_nitrogen ∧ rq ≤ fs.available_quantum_fluid := by
  unfold fs_get_fuel
  split <;> simp <;> omega

lemma fs_get_fuel_snd_of_true (fs : FuelStation) (rn rq : Int)
    (h : rn ≤ fs.available_nitrogen ∧ rq ≤ fs.available_quantum_fluid) :
    (fs_get_fuel fs rn rq).2 =
      { fs with
        available_nitrogen := fs.available_nitrogen - rn
        available_quantum_fluid := fs.available_quantum_fluid - rq } := by
  unfold fs_get_fuel
  rw [if_neg (by omega)]

lemma fs_get_fuel_snd_of_false (fs : FuelStation) (rn rq : Int)
    (h : (fs_get_fuel fs rn rq).1 = false) :
    (fs_get_fuel fs rn rq).2 = fs := by
  unfold fs_get_fuel at *
  split at h <;> simp_all

lemma fs_deposit_fuel_true_iff (fs : FuelStation) (dn dq : Int) :
    (fs_deposit_fuel fs dn dq).1 = true ↔
      fs.available_nitrogen + dn ≤ MAX_NITROGEN ∧
      fs.available_quantum_fluid + dq ≤ MAX_QUANTUM_FLUID := by
  unfold fs_deposit_fuel
  split <;> simp <;> omega

lemma fs_deposit_fuel_snd_of_true (fs : FuelStation) (dn dq : Int)
    (h : fs.available_nitrogen + dn ≤ MAX_NITROGEN ∧
      fs.available_quantum_fluid + dq ≤ MAX_QUANTUM_FLUID) :
    (fs_deposit_fuel fs dn dq).2 =
      { fs with
        available_nitrogen := fs.available_nitrogen + dn
        available_quantum_fluid := fs.available_quantum_fluid + dq } := by
  unfold fs_deposit_fuel
  rw [if_neg (by omega)]

lemma FSStep_preserves {s s' : FSSys} (hinv : FSInvStrong s) (hstep : FSStep s s') :
    FSInvStrong s' := by
  obtain ⟨⟨hn0, hn1, hq0, hq1, hd0, hd1⟩, hdk, hpart⟩ := hinv
  cases hstep with
  | arrive hg =>
      rw [fs_arrive_true_iff] at hg
      rw [fs_arrive_snd_of_true s.fs hg]
      simp only [FSInvStrong, FSInv]
      refine ⟨⟨hn0, hn1, hq0, hq1, ?_, ?_⟩, ?_, ?_⟩ <;> omega
  | leave hg =>
      simp only [FSInvStrong, FSInv, fs_leave]
      refine ⟨⟨hn0, hn1, hq0, hq1, ?_, ?_⟩, ?_, ?_⟩ <;> omega
  | get_fuel rn rq hrn hrq hg =>
      rw [fs_get_fuel_true_iff] at hg
      rw [fs_get_fuel_snd_of_true s.fs rn rq hg]
      simp only [FSInvStrong, FSInv]
      refine ⟨⟨?_, ?_, ?_, ?_, hd0, hd1⟩, hdk, hpart⟩ <;> omega
  | deposit dn dq hdn hdq hg =>
      rw [fs_deposit_fuel_true_iff] at hg
      rw [fs_deposit_fuel_snd_of_true s.fs dn dq hg]
      simp only [FSInvStrong, FSInv]
      refine ⟨⟨?_, ?_, ?_, ?_, hd0, hd1⟩, hdk, hpart⟩ <;> omega

lemma fssys_init_inv : FSInvStrong fssys_init := by
  simp only [FSInvStrong, FSInv, fssys_init, fuel_station_init,
    MAX_NITROGEN, MAX_QUANTUM_FLUID, MAX_DOCKING_SPOTS]
  omega

lemma FSReach_inv {s : FSSys} (h : FSReach s) : FSInvStrong s := by
  induction h with
  | refl => exact fssys_init_inv
  | tail _ hstep ih => exact FSStep_preserves ih hstep

end Fuel

/-! ### Repair station (`src/Homework_4/Question_2/repair_station.c`) -/

namespace Repair

/-- Vehicle types (`repair_station.c`, line 45). -/
inductive VehicleType
  | TYPE_A
  | TYPE_B
  | TYPE_C
deriving DecidableEq

/-- Configuration constant `MAX_TYPE_A` (line 40). -/
def MAX_TYPE_A : Int := 3

/-- Configuration constant `MAX_TYPE_B` (line 41). -/
def MAX_TYPE_B : Int := 2

/-- Configuration constant `MAX_TYPE_C` (line 42). -/
def MAX_TYPE_C : Int := 4

/-- Configuration constant `MAX_TOTAL_VEHICLES` (line 43). -/
def MAX_TOTAL_VEHICLES : Int := 7

/-- Shared state of the `RepairStation` monitor: the three per-type
counters protected by `mtx` (lines 48-56). -/
structure RepairStation where
  count_A : Int
  count_B : Int
  count_C : Int
deriving DecidableEq

/-- Counter part of `repair_station_init` (lines 61-70): all counters
start at zero.  The function takes no parameters and performs no
validation of the capacity constants. -/
def repair_station_init : RepairStation :=
  { count_A := 0, count_B := 0, count_C := 0 }

/-- Per-type count of vehicles currently in repair. -/
def countOf (rs : RepairStation) : VehicleType → Int
  | VehicleType.TYPE_A => rs.count_A
  | VehicleType.TYPE_B => rs.count_B
  | VehicleType.TYPE_C => rs.count_C

/-- Per-type capacity constant. -/
def maxOf : VehicleType → Int
  | VehicleType.TYPE_A => MAX_TYPE_A
  | VehicleType.TYPE_B => MAX_TYPE_B
  | VehicleType.TYPE_C => MAX_TYPE_C

/-- `can_enter` (lines 84-94): a vehicle may enter when the total count is
below `MAX_TOTAL_VEHICLES` and its own type count is below that type's
capacity. -/
def can_enter (rs : RepairStation) (type : VehicleType) : Bool :=
  if MAX_TOTAL_VEHICLES ≤ rs.count_A + rs.count_B + rs.count_C then false
  else
    match type with
    | VehicleType.TYPE_A => decide (rs.count_A < MAX_TYPE_A)
    | VehicleType.TYPE_B => decide (rs.count_B < MAX_TYPE_B)
    | VehicleType.TYPE_C => decide (rs.count_C < MAX_TYPE_C)

/-- Increment of the entering vehicle's counter (`rs_request_repair`,
lines 111-115). -/
def bumpCount (rs : RepairStation) : VehicleType → RepairStation
  | VehicleType.TYPE_A => { rs with count_A := rs.count_A + 1 }
  | VehicleType.TYPE_B => { rs with count_B := rs.count_B + 1 }
  | VehicleType.TYPE_C => { rs with count_C := rs.count_C + 1 }

/-- Admission part of `rs_request_repair` (lines 101-121): one iteration
of the `while (!can_enter(rs, type))` wait loop under the lock; when
`can_enter` holds the type's counter is incremented in the same critical
section, otherwise nothing is mutated. -/
def rs_request_repair (rs : RepairStation) (type : VehicleType) :
    Bool × RepairStation :=
  if can_enter rs type then (true, bumpCount rs type) else (false, rs)

/-- Body of `rs_release_from_repair` (lines 127-144): the type's counter
is decremented unconditionally; there is no guard and no assertion in the
C code. -/
def rs_release_from_repair (rs : RepairStation) : VehicleType → RepairStation
  | VehicleType.TYPE_A => { rs with count_A := rs.count_A - 1 }
  | VehicleType.TYPE_B => { rs with count_B := rs.count_B - 1 }
  | VehicleType.TYPE_C => { rs with count_C := rs.count_C - 1 }

/-- One critical section of the repair-station program.  Every
`rs_release_from_repair` in the program is executed by a vehicle thread
that previously completed `rs_request_repair` of the same type
(`vehicle_thread_func`, lines 158-179), so a release of type `t` happens
only when `countOf rs t ≥ 1`. -/
inductive RSStep : RepairStation → RepairStation → Prop
  | request (rs : RepairStation) (t : VehicleType) :
      (rs_request_repair rs t).1 = true →
      RSStep rs (rs_request_repair rs t).2
  | release (rs : RepairStation) (t : VehicleType) :
      1 ≤ countOf rs t →
      RSStep rs (rs_release_from_repair rs t)

/-- Reachability of a repair-station state from the freshly constructed
station. -/
def RSReach (rs : RepairStation) : Prop :=
  Relation.ReflTransGen RSStep repair_station_init rs

/-- Capacity invariant for the repair station, as the spec states it:
every class count is nonnegative and at most its class capacity, and the
total is at most the total capacity. -/
def RSInv (rs : RepairStation) : Prop :=
  0 ≤ rs.count_A ∧ 0 ≤ rs.count_B ∧ 0 ≤ rs.count_C ∧
  rs.count_A ≤ MAX_TYPE_A ∧ rs.count_B ≤ MAX_TYPE_B ∧ rs.count_C ≤ MAX_TYPE_C ∧
  rs.count_A + rs.count_B + rs.count_C ≤ MAX_TOTAL_VEHICLES

lemma can_enter_true_iff (rs : RepairStation) (t : VehicleType) :
    can_enter rs t = true ↔
      rs.count_A + rs.count_B + rs.count_C < MAX_TOTAL_VEHICLES ∧
      countOf rs t < maxOf t := by
  cases t <;>
    · unfold can_enter countOf maxOf
      split <;> simp <;> omega

lemma rs_request_repair_true_iff (rs : RepairStation) (t : VehicleType) :
    (rs_request_repair rs t).1 = true ↔
      rs.count_A + rs.count_B + rs.count_C < MAX_TOTAL_VEHICLES ∧
      countOf rs t < maxOf t := by
  rw [← can_enter_true_iff]
  unfold rs_request_repair
  split <;> simp_all

lemma rs_request_repair_snd_of_true (rs : RepairStation) (t : VehicleType)
    (h : (rs_request_repair rs t).1 = true) :
    (rs_request_repair rs t).2 = bumpCount rs t := by
  unfold rs_request_repair at *
  split at h <;> simp_all

lemma rs_request_repair_snd_of_false (rs : RepairStation) (t : VehicleType)
    (h : (rs_request_repair rs t).1 = false) :
    (rs_request_repair rs t).2 = rs := by
  unfold rs_request_repair at *
  split at h <;> simp_all

lemma RSStep_preserves {rs rs' : RepairStation} (hinv : RSInv rs)
    (hstep : RSStep rs rs') : RSInv rs' := by
  obtain ⟨hA0, hB0, hC0, hA1, hB1, hC1, htot⟩ := hinv
  cases hstep with
  | request t hg =>
      rw [rs_request_repair_snd_of_true rs t hg]
      rw [rs_request_repair_true_iff] at hg
      obtain ⟨htot', hty⟩ := hg
      cases t <;>
        simp_all [RSInv, bumpCount, countOf, maxOf] <;> omega
  | release t hg =>
      cases t <;>
        simp_all [RSInv, rs_release_from_repair, countOf] <;> omega

lemma RSReach_inv {rs : RepairStation} (h : RSReach rs) : RSInv rs := by
  induction h with
  | refl =>
      simp [RSInv, repair_station_init, MAX_TYPE_A, MAX_TYPE_B, MAX_TYPE_C,
        MAX_TOTAL_VEHICLES]
  | tail _ hstep ih => exact RSStep_preserves ih hstep

end Repair

/-! ### Bear and bees (`src/Homework_4/Question_6/bear_and_bees_monitor.c`) -/

namespace Pot

/-- Shared state of the `HoneyPot` monitor: the two counters protected by
`mtx` (`bear_and_bees_monitor.c`, lines 39-46). -/
structure HoneyPot where
  capacity : Int
  honey_portions : Int
deriving DecidableEq

/-- Counter part of `pot_init` (lines 51-58): the capacity argument is
stored as given — `pot_init` performs no validation and cannot fail — and
the pot starts empty. -/
def pot_init (capacity : Int) : HoneyPot :=
  { capacity := capacity, honey_portions := 0 }

/-- Admission part of `pot_add_honey` (lines 73-91): a bee waits
`while (honey_portions >= capacity)`; when the guard lets it through it
adds one portion in the same critical section. -/
def pot_add_honey (pot : HoneyPot) : Bool × HoneyPot :=
  if pot.capacity ≤ pot.honey_portions then (false, pot)
  else (true, { pot with honey_portions := pot.honey_portions + 1 })

/-- Admission part of `pot_eat_honey` (lines 97-115): the bear waits
`while (honey_portions < capacity)`; when the guard lets it through it
resets `honey_portions` to 0 in the same critical section (the
`sleep(2)` on line 108 happens while the mutex is still held, so no other
thread observes an intermediate state). -/
def pot_eat_honey (pot : HoneyPot) : Bool × HoneyPot :=
  if pot.honey_portions < pot.capacity then (false, pot)
  else (true, { pot with honey_portions := 0 })

/-- Argument validation performed by `main` (lines 166-169) before the
pot is constructed and before any bear/bee thread is created: all three
command-line arguments must be positive, otherwise `main` returns with an
error message. -/
def bear_main_args_ok (num_bees pot_capacity num_rounds : Int) : Bool :=
  !(num_bees ≤ 0 || pot_capacity ≤ 0 || num_rounds ≤ 0)

/-- One critical section of the bear-and-bees program on a pot of the
given capacity. -/
inductive PotStep : HoneyPot → HoneyPot → Prop
  | add (pot : HoneyPot) :
      (pot_add_honey pot).1 = true →
      PotStep pot (pot_add_honey pot).2
  | eat (pot : HoneyPot) :
      (pot_eat_honey pot).1 = true →
      PotStep pot (pot_eat_honey pot).2

/-- Reachability of a pot state from a freshly constructed pot of
capacity `c`. -/
def PotReach (c : Int) (pot : HoneyPot) : Prop :=
  Relation.ReflTransGen PotStep (pot_init c) pot

/-- Capacity invariant for the honey pot: the fill level stays in
`[0, capacity]` and the capacity field never changes. -/
def PotInv (c : Int) (pot : HoneyPot) : Prop :=
  pot.capacity = c ∧ 0 ≤ pot.honey_portions ∧ pot.honey_portions ≤ pot.capacity

lemma pot_add_honey_true_iff (pot : HoneyPot) :
    (pot_add_honey pot).1 = true ↔ pot.honey_portions < pot.capacity := by
  unfold pot_add_honey
  split <;> simp <;> omega

lemma pot_add_honey_snd_of_true (pot : HoneyPot) (h : pot.honey_portions < pot.capacity) :
    (pot_add_honey pot).2 = { pot with honey_portions := pot.honey_portions + 1 } := by
  unfold pot_add_honey
  rw [if_neg (by omega)]

lemma pot_eat_honey_true_iff (pot : HoneyPot) :
    (pot_eat_honey pot).1 = true ↔ pot.capacity ≤ pot.honey_portions := by
  unfold pot_eat_honey
  split <;> simp <;> omega

lemma pot_eat_honey_snd_of_true (pot : HoneyPot) (h : pot.capacity ≤ pot.honey_portions) :
    (pot_eat_honey pot).2 = { pot with honey_portions := 0 } := by
  unfold pot_eat_honey
  rw [if_neg (by omega)]

lemma PotStep_preserves {c : Int} (hc : 0 ≤ c) {pot pot' : HoneyPot}
    (hinv : PotInv c pot) (hstep : PotStep pot pot') : PotInv c pot' := by
  obtain ⟨hcap, h0, h1⟩ := hinv
  cases hstep with
  | add hg =>
      rw [pot_add_honey_true_iff] at hg
      rw [pot_add_honey_snd_of_true pot hg]
      refine ⟨hcap, ?_, ?_⟩ <;> simp <;> omega
  | eat hg =>
      rw [pot_eat_honey_true_iff] at hg
      rw [pot_eat_honey_snd_of_true pot hg]
      refine ⟨hcap, ?_, ?_⟩ <;> simp <;> omega

lemma PotReach_inv {c : Int} (hc : 0 ≤ c) {pot : HoneyPot} (h : PotReach c pot) :
    PotInv c pot := by
  induction h with
  | refl => exact ⟨rfl, le_refl 0, by simp [pot_init]; omega⟩
  | tail _ hstep ih => exact PotStep_preserves hc ih hstep

end Pot

/-! ### One-lane bridge (`src/Homework_4/Question_7/one_lane_bridge.c`) -/

namespace BridgeM

/-- Travel directions (`one_lane_bridge.c`, line 10). -/
inductive Direction
  | NORTH
  | SOUTH
  | NONE
deriving DecidableEq

/-- Shared state of the `Bridge` monitor: the counters and direction
fields protected by `mtx` (lines 13-23). -/
structure Bridge where
  cars_on_bridge : Int
  current_direction : Direction
  north_waiting : Int
  south_waiting : Int
  last_direction : Direction
deriving DecidableEq

/-- Counter part of `bridge_init` (lines 33-44). -/
def bridge_init : Bridge :=
  { cars_on_bridge := 0
    current_direction := Direction.NONE
    north_waiting := 0
    south_waiting := 0
    last_direction := Direction.NONE }

/-- `can_enter` (lines 54-80): a car may enter when nobody is crossing in
the opposite direction and, on an empty bridge, the alternating-priority
rule does not require it to yield. -/
def can_enter (b : Bridge) (dir : Direction) : Bool :=
  if 0 < b.cars_on_bridge ∧ ¬ b.current_direction = dir then false
  else if b.cars_on_bridge = 0 then
    match dir with
    | Direction.NORTH =>
        decide (b.south_waiting = 0) || decide (b.last_direction = Direction.SOUTH)
    | _ =>
        decide (b.north_waiting = 0) || decide (b.last_direction = Direction.NORTH)
  else true

/-- Registration part of `bridge_enter` (lines 86-90): the arriving car
increments its direction's waiting counter before the wait loop. -/
def bridge_enter_register (b : Bridge) (dir : Direction) : Bridge :=
  match dir with
  | Direction.NORTH => { b with north_waiting := b.north_waiting + 1 }
  | _ => { b with south_waiting := b.south_waiting + 1 }

/-- Admission part of `bridge_enter` (lines 98-115): one iteration of the
`while (!can_enter(bridge, dir))` loop; when `can_enter` holds the car
leaves the waiting count, claims the direction if the bridge is empty and
steps onto the bridge, all in the same critical section. -/
def bridge_enter_try (b : Bridge) (dir : Direction) : Bool × Bridge :=
  if can_enter b dir then
    let b1 :=
      match dir with
      | Direction.NORTH => { b with north_waiting := b.north_waiting - 1 }
      | _ => { b with south_waiting := b.south_waiting - 1 }
    let b2 :=
      if b1.cars_on_bridge = 0 then { b1 with current_direction := dir } else b1
    (true, { b2 with cars_on_bridge := b2.cars_on_bridge + 1 })
  else (false, b)

/-- Condition-variable targets a critical section may signal. -/
inductive WakeTarget
  | broadcast_north
  | broadcast_south
  | signal_north
  | signal_south
  | no_signal
deriving DecidableEq

/-- `bridge_exit` (lines 126-166): the car steps off; if the bridge
became empty the direction is cleared, the exiting direction is recorded
as `last_direction`, and the opposite queue is broadcast when it has
waiters (otherwise the own queue); if cars remain, the current
direction's queue gets a single signal. -/
def bridge_exit (b : Bridge) (dir : Direction) : Bridge × WakeTarget :=
  let b1 : Bridge := { b with cars_on_bridge := b.cars_on_bridge - 1 }
  if b1.cars_on_bridge = 0 then
    let b2 : Bridge := { b1 with current_direction := Direction.NONE, last_direction := dir }
    match dir with
    | Direction.NORTH =>
        if 0 < b2.south_waiting then (b2, WakeTarget.broadcast_south)
        else (b2, WakeTarget.broadcast_north)
    | _ =>
        if 0 < b2.north_waiting then (b2, WakeTarget.broadcast_north)
        else (b2, WakeTarget.broadcast_south)
  else
    match b1.current_direction with
    | Direction.NORTH => (b1, WakeTarget.signal_north)
    | Direction.SOUTH => (b1, WakeTarget.signal_south)
    | Direction.NONE => (b1, WakeTarget.no_signal)

/-- Waiting count of a direction's queue. -/
def waitingOf (b : Bridge) : Direction → Int
  | Direction.NORTH => b.north_waiting
  | Direction.SOUTH => b.south_waiting
  | Direction.NONE => 0

/-- The opposite travel direction. -/
def opposite : Direction → Direction
  | Direction.NORTH => Direction.SOUTH
  | Direction.SOUTH => Direction.NORTH
  | Direction.NONE => Direction.NONE

/-- Number of waiters of each direction (north, south) woken by a wake
target: a broadcast wakes every waiter of its queue, a signal at most
one, and queues are disjoint per direction. -/
def wokenB (b : Bridge) : WakeTarget → Int × Int
  | WakeTarget.broadcast_north => (b.north_waiting, 0)
  | WakeTarget.broadcast_south => (0, b.south_waiting)
  | WakeTarget.signal_north => (min b.north_waiting 1, 0)
  | WakeTarget.signal_south => (0, min b.south_waiting 1)
  | WakeTarget.no_signal => (0, 0)

/-- Woken waiters belonging to one direction's class. -/
def wokenOfClass (b : Bridge) (t : WakeTarget) : Direction → Int
  | Direction.NORTH => (wokenB b t).1
  | Direction.SOUTH => (wokenB b t).2
  | Direction.NONE => 0

/-- System state: the monitor state plus how many of the cars currently
on the bridge entered north-bound resp. south-bound.  These are the
per-class "inside" counts the mutual-exclusion property speaks about; the
C code only stores their sum (`cars_on_bridge`) plus `current_direction`. -/
structure BridgeSys where
  br : Bridge
  north_on : Int
  south_on : Int
deriving DecidableEq

/-- System start state. -/
def bsys_init : BridgeSys := { br := bridge_init, north_on := 0, south_on := 0 }

/-- Per-direction count of cars on the bridge. -/
def onOf (s : BridgeSys) : Direction → Int
  | Direction.NORTH => s.north_on
  | Direction.SOUTH => s.south_on
  | Direction.NONE => 0

/-- One critical section of the bridge program.  Car threads only use
`NORTH` and `SOUTH` (`car_func`, lines 179-203); an exit of direction `d`
is executed by a car that is on the bridge in direction `d`, and an
admission by a car that registered first. -/
inductive BridgeStep : BridgeSys → BridgeSys → Prop
  | register (s : BridgeSys) (dir : Direction) :
      dir = Direction.NORTH ∨ dir = Direction.SOUTH →
      BridgeStep s { s with br := bridge_enter_register s.br dir }
  | enter (s : BridgeSys) (dir : Direction) :
      dir = Direction.NORTH ∨ dir = Direction.SOUTH →
      1 ≤ waitingOf s.br dir →
      (bridge_enter_try s.br dir).1 = true →
      BridgeStep s
        { br := (bridge_enter_try s.br dir).2
          north_on := s.north_on + (if dir = Direction.NORTH then 1 else 0)
          south_on := s.south_on + (if dir = Direction.SOUTH then 1 else 0) }
  | exit (s : BridgeSys) (dir : Direction) :
      dir = Direction.NORTH ∨ dir = Direction.SOUTH →
      1 ≤ onOf s dir →
      BridgeStep s
        { br := (bridge_exit s.br dir).1
          north_on := s.north_on - (if dir = Direction.NORTH then 1 else 0)
          south_on := s.south_on - (if dir = Direction.SOUTH then 1 else 0) }

/-- Reachability of a bridge system state from the start state. -/
def BReach (s : BridgeSys) : Prop := Relation.ReflTransGen BridgeStep bsys_init s

/-- Strengthened invariant for the bridge: the per-direction counts are
nonnegative, they sum to `cars_on_bridge`, every nonempty direction class
owns `current_direction`, and the waiting counts are nonnegative. -/
def BInv (s : BridgeSys) : Prop :=
  0 ≤ s.north_on ∧ 0 ≤ s.south_on ∧
  s.br.cars_on_bridge = s.north_on + s.south_on ∧
  (0 < s.north_on → s.br.current_direction = Direction.NORTH) ∧
  (0 < s.south_on → s.br.current_direction = Direction.SOUTH) ∧
  0 ≤ s.br.north_waiting ∧ 0 ≤ s.br.south_waiting

lemma can_enter_true_cases (b : Bridge) (dir : Direction)
    (h : can_enter b dir = true) :
    b.cars_on_bridge ≤ 0 ∨ b.current_direction = dir := by
  unfold can_enter at h
  by_cases hc : 0 < b.cars_on_bridge ∧ ¬ b.current_direction = dir
  · rw [if_pos hc] at h
    exact absurd h (by decide)
  · push_neg at hc
    by_cases h0 : 0 < b.cars_on_bridge
    · exact Or.inr (hc h0)
    · exact Or.inl (by omega)

lemma bridge_enter_try_snd (b : Bridge) (dir : Direction)
    (h : can_enter b dir = true) :
    (bridge_enter_try b dir).2 =
      (let b1 :=
        match dir with
        | Direction.NORTH => { b with north_waiting := b.north_waiting - 1 }
        | _ => { b with south_waiting := b.south_waiting - 1 }
      let b2 :=
        if b1.cars_on_bridge = 0 then { b1 with current_direction := dir } else b1
      { b2 with cars_on_bridge := b2.cars_on_bridge + 1 }) := by
  unfold bridge_enter_try
  rw [if_pos h]

lemma bridge_enter_try_snd_north (b : Bridge)
    (h : can_enter b Direction.NORTH = true) :
    (bridge_enter_try b Direction.NORTH).2 =
      if b.cars_on_bridge = 0 then
        { b with
          north_waiting := b.north_waiting - 1
          current_direction := Direction.NORTH
          cars_on_bridge := b.cars_on_bridge + 1 }
      else
        { b with
          north_waiting := b.north_waiting - 1
          cars_on_bridge := b.cars_on_bridge + 1 } := by
  unfold bridge_enter_try
  rw [if_pos h]
  by_cases h0 : b.cars_on_bridge = 0 <;> simp [h0]

lemma bridge_enter_try_snd_south (b : Bridge)
    (h : can_enter b Direction.SOUTH = true) :
    (bridge_enter_try b Direction.SOUTH).2 =
      if b.cars_on_bridge = 0 then
        { b with
          south_waiting := b.south_waiting - 1
          current_direction := Direction.SOUTH
          cars_on_bridge := b.cars_on_bridge + 1 }
      else
        { b with
          south_waiting := b.south_waiting - 1
          cars_on_bridge := b.cars_on_bridge + 1 } := by
  unfold bridge_enter_try
  rw [if_pos h]
  by_cases h0 : b.cars_on_bridge = 0 <;> simp [h0]

lemma bridge_exit_fst (b : Bridge) (dir : Direction) :
    (bridge_exit b dir).1 =
      if b.cars_on_bridge - 1 = 0 then
        { b with
          cars_on_bridge := b.cars_on_bridge - 1
          current_direction := Direction.NONE
          last_direction := dir }
      else { b with cars_on_bridge := b.cars_on_bridge - 1 } := by
  unfold bridge_exit
  by_cases h0 : b.cars_on_bridge - 1 = 0
  · simp only [h0]
    cases dir <;> simp <;> split <;> rfl
  · simp only [h0]
    cases hcd : b.current_direction <;> simp [h0]

lemma bridge_enter_try_true_can (b : Bridge) (dir : Direction)
    (hadm : (bridge_enter_try b dir).1 = true) : can_enter b dir = true := by
  unfold bridge_enter_try at hadm
  by_cases h : can_enter b dir
  · exact h
  · rw [if_neg h] at hadm
    simp at hadm

lemma BridgeStep_preserves {s s' : BridgeSys} (hinv : BInv s)
    (hstep : BridgeStep s s') : BInv s' := by
  obtain ⟨hn0, hs0, hsum, hnd, hsd, hw1, hw2⟩ := hinv
  cases hstep with
  | register dir hd =>
      rcases hd with rfl | rfl <;>
        exact ⟨hn0, hs0, hsum, hnd, hsd, by simp [bridge_enter_register]; omega,
          by simp [bridge_enter_register]; omega⟩
  | enter dir hd hw hadm =>
      have hce := bridge_enter_try_true_can s.br dir hadm
      have hcases := can_enter_true_cases s.br dir hce
      rcases hd with rfl | rfl
      · rw [bridge_enter_try_snd_north s.br hce]
        by_cases h0 : s.br.cars_on_bridge = 0
        · have hn : s.north_on = 0 := by omega
          have hs : s.south_on = 0 := by omega
          rw [if_pos h0]
          refine ⟨by simp; omega, by simp; omega, by simp; omega, ?_, ?_,
            by simp [waitingOf] at hw ⊢; omega, by simp; omega⟩
          · intro _; rfl
          · intro hcon; exfalso; simp at hcon; omega
        · have hcd : s.br.current_direction = Direction.NORTH := by
            rcases hcases with h | h
            · omega
            · exact h
          have hsz : s.south_on = 0 := by
            by_contra hne
            have h2 := hsd (by omega)
            rw [hcd] at h2
            exact absurd h2 (by decide)
          rw [if_neg h0]
          refine ⟨by simp; omega, by simp; omega, by simp; omega, ?_, ?_,
            by simp [waitingOf] at hw ⊢; omega, by simp; omega⟩
          · intro _; exact hcd
          · intro hcon; exfalso; simp at hcon; omega
      · rw [bridge_enter_try_snd_south s.br hce]
        by_cases h0 : s.br.cars_on_bridge = 0
        · have hn : s.north_on = 0 := by omega
          have hs : s.south_on = 0 := by omega
          rw [if_pos h0]
          refine ⟨by simp; omega, by simp; omega, by simp; omega, ?_, ?_,
            by simp; omega, by simp [waitingOf] at hw ⊢; omega⟩
          · intro hcon; exfalso; simp at hcon; omega
          · intro _; rfl
        · have hcd : s.br.current_direction = Direction.SOUTH := by
            rcases hcases with h | h
            · omega
            · exact h
          have hnz : s.north_on = 0 := by
            by_contra hne
            have h2 := hnd (by omega)
            rw [hcd] at h2
            exact absurd h2 (by decide)
          rw [if_neg h0]
          refine ⟨by simp; omega, by simp; omega, by simp; omega, ?_, ?_,
            by simp; omega, by simp [waitingOf] at hw ⊢; omega⟩
          · intro hcon; exfalso; simp at hcon; omega
          · intro _; exact hcd
  | exit dir hd hon =>
      rw [bridge_exit_fst s.br dir]
      rcases hd with rfl | rfl
      · simp only [onOf] at hon
        by_cases h0 : s.br.cars_on_bridge - 1 = 0
        · rw [if_pos h0]
          refine ⟨by simp; omega, by simp; omega, by simp; omega, ?_, ?_,
            by simp; omega, by simp; omega⟩
          · intro hcon; exfalso; simp at hcon; omega
          · intro hcon; exfalso; simp at hcon; omega
        · rw [if_neg h0]
          refine ⟨by simp; omega, by simp; omega, by simp; omega, ?_, ?_,
            by simp; omega, by simp; omega⟩
          · intro hcon; simp at hcon
            exact hnd (by omega)
          · intro hcon; simp at hcon
            exact hsd (by omega)
      · simp only [onOf] at hon
        by_cases h0 : s.br.cars_on_bridge - 1 = 0
        · rw [if_pos h0]
          refine ⟨by simp; omega, by simp; omega, by simp; omega, ?_, ?_,
            by simp; omega, by simp; omega⟩
          · intro hcon; exfalso; simp at hcon; omega
          · intro hcon; exfalso; simp at hcon; omega
        · rw [if_neg h0]
          refine ⟨by simp; omega, by simp; omega, by simp; omega, ?_, ?_,
            by simp; omega, by simp; omega⟩
          · intro hcon; simp at hcon
            exact hnd (by omega)
          · intro hcon; simp at hcon
            exact hsd (by omega)

lemma BReach_inv {s : BridgeSys} (h : BReach s) : BInv s := by
  induction h with
  | refl => exact ⟨le_refl 0, le_refl 0, rfl, by intro h; exact absurd h (by decide),
      by intro h; exact absurd h (by decide), le_refl 0, le_refl 0⟩
  | tail _ hstep ih => exact BridgeStep_preserves ih hstep

lemma BReach_mutex {s : BridgeSys} (h : BReach s) :
    min s.north_on s.south_on = 0 := by
  obtain ⟨hn0, hs0, _, hnd, hsd, _, _⟩ := BReach_inv h
  by_contra hne
  have hn : 0 < s.north_on := by omega
  have hs : 0 < s.south_on := by omega
  have h1 := hnd hn
  have h2 := hsd hs
  rw [h1] at h2
  exact absurd h2 (by decide)

end BridgeM

/-! ### Unisex bathroom (`src/Homework_4/Question_8/unisex_bathroom.c`) -/

namespace Bath

/-- Genders (`unisex_bathroom.c`, line 10). -/
inductive Gender
  | MAN
  | WOMAN
  | NONE_GENDER
deriving DecidableEq

/-- Shared state of the `UnisexBathroom` monitor: the counters and the
fairness field protected by `mtx` (lines 13-23). -/
structure UnisexBathroom where
  men_inside : Int
  women_inside : Int
  men_waiting : Int
  women_waiting : Int
  last_gender : Gender
deriving DecidableEq

/-- Counter part of `bathroom_init` (lines 33-44). -/
def bathroom_init : UnisexBathroom :=
  { men_inside := 0
    women_inside := 0
    men_waiting := 0
    women_waiting := 0
    last_gender := Gender.NONE_GENDER }

/-- `can_enter` (lines 54-79): a person may enter when nobody of the
opposite gender is inside and, in an empty bathroom, the
alternating-priority rule does not require them to yield. -/
def can_enter (ub : UnisexBathroom) (gender : Gender) : Bool :=
  if (gender = Gender.MAN ∧ 0 < ub.women_inside) ∨
      (gender = Gender.WOMAN ∧ 0 < ub.men_inside) then false
  else if ub.men_inside = 0 ∧ ub.women_inside = 0 then
    match gender with
    | Gender.MAN =>
        decide (ub.women_waiting = 0) || decide (ub.last_gender = Gender.WOMAN)
    | _ =>
        decide (ub.men_waiting = 0) || decide (ub.last_gender = Gender.MAN)
  else true

/-- Registration part of `man_enter` (lines 82-87). -/
def man_enter_register (ub : UnisexBathroom) : UnisexBathroom :=
  { ub with men_waiting := ub.men_waiting + 1 }

/-- Admission part of `man_enter` (lines 89-98): one iteration of the
`while (!can_enter(ub, MAN))` loop; on success the man leaves the waiting
count and enters, in the same critical section. -/
def man_enter_try (ub : UnisexBathroom) : Bool × UnisexBathroom :=
  if can_enter ub Gender.MAN then
    (true, { ub with men_waiting := ub.men_waiting - 1, men_inside := ub.men_inside + 1 })
  else (false, ub)

/-- Registration part of `woman_enter` (lines 127-132). -/
def woman_enter_register (ub : UnisexBathroom) : UnisexBathroom :=
  { ub with women_waiting := ub.women_waiting + 1 }

/-- Admission part of `woman_enter` (lines 134-143). -/
def woman_enter_try (ub : UnisexBathroom) : Bool × UnisexBathroom :=
  if can_enter ub Gender.WOMAN then
    (true, { ub with women_waiting := ub.women_waiting - 1, women_inside := ub.women_inside + 1 })
  else (false, ub)

/-- Condition-variable targets a bathroom critical section may signal. -/
inductive WakeTargetU
  | broadcast_men
  | broadcast_women
  | no_signal
deriving DecidableEq

/-- `man_exit` (lines 102-124): the man leaves; if the bathroom became
empty, `last_gender` is set to `MAN` and the women's queue is broadcast
when it has waiters (otherwise the men's queue); if men remain inside the
men's queue is broadcast. -/
def man_exit (ub : UnisexBathroom) : UnisexBathroom × WakeTargetU :=
  let ub1 : UnisexBathroom := { ub with men_inside := ub.men_inside - 1 }
  if ub1.men_inside = 0 ∧ ub1.women_inside = 0 then
    let ub2 : UnisexBathroom := { ub1 with last_gender := Gender.MAN }
    if 0 < ub2.women_waiting then (ub2, WakeTargetU.broadcast_women)
    else (ub2, WakeTargetU.broadcast_men)
  else if 0 < ub1.men_inside then (ub1, WakeTargetU.broadcast_men)
  else (ub1, WakeTargetU.no_signal)

/-- `woman_exit` (lines 147-169): symmetric to `man_exit`. -/
def woman_exit (ub : UnisexBathroom) : UnisexBathroom × WakeTargetU :=
  let ub1 : UnisexBathroom := { ub with women_inside := ub.women_inside - 1 }
  if ub1.men_inside = 0 ∧ ub1.women_inside = 0 then
    let ub2 : UnisexBathroom := { ub1 with last_gender := Gender.WOMAN }
    if 0 < ub2.men_waiting then (ub2, WakeTargetU.broadcast_men)
    else (ub2, WakeTargetU.broadcast_women)
  else if 0 < ub1.women_inside then (ub1, WakeTargetU.broadcast_women)
  else (ub1, WakeTargetU.no_signal)

/-- Number of waiters of each gender (men, women) woken by a wake
target. -/
def wokenU (ub : UnisexBathroom) : WakeTargetU → Int × Int
  | WakeTargetU.broadcast_men => (ub.men_waiting, 0)
  | WakeTargetU.broadcast_women => (0, ub.women_waiting)
  | WakeTargetU.no_signal => (0, 0)

/-- One critical section of the bathroom program.  Each exit is executed
by a person who is inside (`man_func`/`woman_func`, lines 182-225, pair
every enter with one exit), and each admission by a person who
registered first. -/
inductive BathStep : UnisexBathroom → UnisexBathroom → Prop
  | man_register (ub : UnisexBathroom) :
      BathStep ub (man_enter_register ub)
  | woman_register (ub : UnisexBathroom) :
      BathStep ub (woman_enter_register ub)
  | man_admit (ub : UnisexBathroom) :
      1 ≤ ub.men_waiting →
      (man_enter_try ub).1 = true →
      BathStep ub (man_enter_try ub).2
  | woman_admit (ub : UnisexBathroom) :
      1 ≤ ub.women_waiting →
      (woman_enter_try ub).1 = true →
      BathStep ub (woman_enter_try ub).2
  | man_leave (ub : UnisexBathroom) :
      1 ≤ ub.men_inside →
      BathStep ub (man_exit ub).1
  | woman_leave (ub : UnisexBathroom) :
      1 ≤ ub.women_inside →
      BathStep ub (woman_exit ub).1

/-- Reachability of a bathroom state from the start state. -/
def UReach (ub : UnisexBathroom) : Prop :=
  Relation.ReflTransGen BathStep bathroom_init ub

/-- Invariant for the bathroom: all counters nonnegative and never both
genders inside. -/
def UInv (ub : UnisexBathroom) : Prop :=
  0 ≤ ub.men_inside ∧ 0 ≤ ub.women_inside ∧
  0 ≤ ub.men_waiting ∧ 0 ≤ ub.women_waiting ∧
  (ub.men_inside = 0 ∨ ub.women_inside = 0)

lemma can_enter_man_true (ub : UnisexBathroom)
    (h : can_enter ub Gender.MAN = true) : ub.women_inside ≤ 0 := by
  unfold can_enter at h
  by_cases hw : 0 < ub.women_inside
  · rw [if_pos (Or.inl ⟨rfl, hw⟩)] at h
    exact absurd h (by decide)
  · omega

lemma can_enter_woman_true (ub : UnisexBathroom)
    (h : can_enter ub Gender.WOMAN = true) : ub.men_inside ≤ 0 := by
  unfold can_enter at h
  by_cases hm : 0 < ub.men_inside
  · rw [if_pos (Or.inr ⟨rfl, hm⟩)] at h
    exact absurd h (by decide)
  · omega

lemma man_enter_try_true_can (ub : UnisexBathroom)
    (h : (man_enter_try ub).1 = true) : can_enter ub Gender.MAN = true := by
  unfold man_enter_try at h
  by_cases hc : can_enter ub Gender.MAN
  · exact hc
  · rw [if_neg hc] at h
    simp at h

lemma woman_enter_try_true_can (ub : UnisexBathroom)
    (h : (woman_enter_try ub).1 = true) : can_enter ub Gender.WOMAN = true := by
  unfold woman_enter_try at h
  by_cases hc : can_enter ub Gender.WOMAN
  · exact hc
  · rw [if_neg hc] at h
    simp at h

lemma man_exit_fst (ub : UnisexBathroom) :
    (man_exit ub).1 =
      if ub.men_inside - 1 = 0 ∧ ub.women_inside = 0 then
        { ub with men_inside := ub.men_inside - 1, last_gender := Gender.MAN }
      else { ub with men_inside := ub.men_inside - 1 } := by
  unfold man_exit
  by_cases h0 : ub.men_inside - 1 = 0 ∧ ub.women_inside = 0
  · simp only [h0, and_true, if_pos]
    split <;> simp [h0]
  · simp only [h0, if_false]
    split <;> rfl

lemma woman_exit_fst (ub : UnisexBathroom) :
    (woman_exit ub).1 =
      if ub.men_inside = 0 ∧ ub.women_inside - 1 = 0 then
        { ub with women_inside := ub.women_inside - 1, last_gender := Gender.WOMAN }
      else { ub with women_inside := ub.women_inside - 1 } := by
  unfold woman_exit
  by_cases h0 : ub.men_inside = 0 ∧ ub.women_inside - 1 = 0
  · simp only [h0, and_true, if_pos]
    split <;> simp [h0]
  · simp only [h0, if_false]
    split <;> rfl

lemma BathStep_preserves {ub ub' : UnisexBathroom} (hinv : UInv ub)
    (hstep : BathStep ub ub') : UInv ub' := by
  obtain ⟨hm0, hw0, hmw, hww, hmx⟩ := hinv
  cases hstep with
  | man_register =>
      exact ⟨hm0, hw0, by simp [man_enter_register]; omega, hww,
        by simpa [man_enter_register] using hmx⟩
  | woman_register =>
      exact ⟨hm0, hw0, hmw, by simp [woman_enter_register]; omega,
        by simpa [woman_enter_register] using hmx⟩
  | man_admit hwait hadm =>
      have hc := man_enter_try_true_can ub hadm
      have hwz := can_enter_man_true ub hc
      unfold man_enter_try
      rw [if_pos hc]
      refine ⟨by simp; omega, by simp; omega, by simp; omega, by simpa using hww, ?_⟩
      right
      simp
      omega
  | woman_admit hwait hadm =>
      have hc := woman_enter_try_true_can ub hadm
      have hmz := can_enter_woman_true ub hc
      unfold woman_enter_try
      rw [if_pos hc]
      refine ⟨by simp; omega, by simp; omega, by simpa using hmw, by simp; omega, ?_⟩
      left
      simp
      omega
  | man_leave hin =>
      rw [man_exit_fst ub]
      by_cases h0 : ub.men_inside - 1 = 0 ∧ ub.women_inside = 0
      · rw [if_pos h0]
        refine ⟨by simp; omega, by simp; omega, by simpa using hmw,
          by simpa using hww, ?_⟩
        left; simp; omega
      · rw [if_neg h0]
        refine ⟨by simp; omega, by simp; omega, by simpa using hmw,
          by simpa using hww, ?_⟩
        rcases hmx with h | h
        · left; simp; omega
        · right; simpa using h
  | woman_leave hin =>
      rw [woman_exit_fst ub]
      by_cases h0 : ub.men_inside = 0 ∧ ub.women_inside - 1 = 0
      · rw [if_pos h0]
        refine ⟨by simp; omega, by simp; omega, by simpa using hmw,
          by simpa using hww, ?_⟩
        right; simp; omega
      · rw [if_neg h0]
        refine ⟨by simp; omega, by simp; omega, by simpa using hmw,
          by simpa using hww, ?_⟩
        rcases hmx with h | h
        · left; simpa using h
        · right; simp; omega

lemma UReach_inv {ub : UnisexBathroom} (h : UReach ub) : UInv ub := by
  induction h with
  | refl => exact ⟨le_refl 0, le_refl 0, le_refl 0, le_refl 0, Or.inl rfl⟩
  | tail _ hstep ih => exact BathStep_preserves ih hstep

lemma UReach_mutex {ub : UnisexBathroom} (h : UReach ub) :
    min ub.men_inside ub.women_inside = 0 := by
  obtain ⟨hm0, hw0, _, _, hmx⟩ := UReach_inv h
  rcases hmx with h1 | h1 <;> omega

end Bath

/-! ### Dining philosophers (`src/Homework_4/Question_3/dining_philosophers.c`) -/

namespace Phil

/-- Philosopher states (`dining_philosophers.c`, line 40). -/
inductive PState
  | THINKING
  | HUNGRY
  | EATING
deriving DecidableEq

/-- Left neighbour (line 54): `(i + NUM_PHILOSOPHERS - 1) % NUM_PHILOSOPHERS`
with `NUM_PHILOSOPHERS = 5`.  `Fin 5` addition is addition modulo 5. -/
def left (i : Fin 5) : Fin 5 := i + 4

/-- Right neighbour (line 55): `(i + 1) % NUM_PHILOSOPHERS`. -/
def right (i : Fin 5) : Fin 5 := i + 1

/-- Shared state of the `Table` monitor (lines 43-51): philosopher states
and the FCFS ticket counters. -/
structure Table where
  states : Fin 5 → PState
  next_ticket : Nat
  serving_now : Nat

/-- Counter part of `table_init` (lines 63-71). -/
def table_init : Table :=
  { states := fun _ => PState.THINKING, next_ticket := 0, serving_now := 0 }

/-- `test` (lines 88-97): if philosopher `id` is hungry and neither
neighbour is eating, `id` starts eating (and its condition variable is
signalled, which has no effect on the shared state). -/
def test (tb : Table) (id : Fin 5) : Table :=
  if tb.states id = PState.HUNGRY ∧
      tb.states (left id) ≠ PState.EATING ∧
      tb.states (right id) ≠ PState.EATING then
    { tb with states := Function.update tb.states id PState.EATING }
  else tb

/-- System state: the monitor plus the ticket each philosopher drew last
(`my_ticket` is a thread-local variable in `philosopher_func`,
lines 180-193; it is the value `get_ticket` returned to that thread). -/
structure TableSys where
  tb : Table
  ticket : Fin 5 → Nat

/-- System start state (no ticket drawn yet; the `ticket` values of
philosophers that have not drawn are never read). -/
def sys_init : TableSys :=
  { tb := table_init, ticket := fun _ => 0 }

/-- `get_ticket` (lines 154-159): philosopher `i` draws the next ticket
under the lock. -/
def get_ticket (s : TableSys) (i : Fin 5) : TableSys :=
  { tb := { s.tb with next_ticket := s.tb.next_ticket + 1 }
    ticket := Function.update s.ticket i s.tb.next_ticket }

/-- Entry critical section of `getforks` (lines 102-119, first loop
iteration): the philosopher becomes `HUNGRY`, and calls `test` on itself
only if its ticket equals `serving_now`. -/
def getforks_enter (s : TableSys) (i : Fin 5) : TableSys :=
  let tb1 : Table := { s.tb with states := Function.update s.tb.states i PState.HUNGRY }
  { s with tb := if s.ticket i = s.tb.serving_now then test tb1 i else tb1 }

/-- Wakeup iteration of the `getforks` wait loop (lines 109-120): after
being signalled, the philosopher re-runs the ticket check and `test`;
nothing else is mutated. -/
def getforks_retry (s : TableSys) (i : Fin 5) : TableSys :=
  { s with tb := if s.ticket i = s.tb.serving_now then test s.tb i else s.tb }

/-- `relforks` (lines 129-149): the philosopher stops eating,
`serving_now` is advanced, every philosopher is signalled (no state
change), and `test` is run on the left then the right neighbour — with
no ticket check. -/
def relforks (s : TableSys) (i : Fin 5) : TableSys :=
  let tb1 : Table :=
    { s.tb with
      states := Function.update s.tb.states i PState.THINKING
      serving_now := s.tb.serving_now + 1 }
  { s with tb := test (test tb1 (left i)) (right i) }

/-- One critical section of the dining-philosophers program.  The guards
reflect the thread protocol of `philosopher_func` (lines 180-193): a
philosopher draws a ticket and calls `getforks` while `THINKING`, retries
while `HUNGRY`, and calls `relforks` only when it got to `EATING`. -/
inductive PhilStep : TableSys → TableSys → Prop
  | draw (s : TableSys) (i : Fin 5) :
      s.tb.states i = PState.THINKING →
      PhilStep s (get_ticket s i)
  | enter (s : TableSys) (i : Fin 5) :
      s.tb.states i = PState.THINKING →
      PhilStep s (getforks_enter s i)
  | retry (s : TableSys) (i : Fin 5) :
      s.tb.states i = PState.HUNGRY →
      PhilStep s (getforks_retry s i)
  | rel (s : TableSys) (i : Fin 5) :
      s.tb.states i = PState.EATING →
      PhilStep s (relforks s i)

/-- Reachability of a table system state from the start state. -/
def PhilReach (s : TableSys) : Prop := Relation.ReflTransGen PhilStep sys_init s

/-- Safety property: no two adjacent philosophers eat at the same time. -/
def Safe (st : Fin 5 → PState) : Prop :=
  ∀ i : Fin 5, st i = PState.EATING →
    st (left i) ≠ PState.EATING ∧ st (right i) ≠ PState.EATING

lemma left_ne_self : ∀ i : Fin 5, left i ≠ i := by decide

lemma right_ne_self : ∀ i : Fin 5, right i ≠ i := by decide

lemma left_eq_iff : ∀ i j : Fin 5, left i = j ↔ i = right j := by decide

lemma right_eq_iff : ∀ i j : Fin 5, right i = j ↔ i = left j := by decide

lemma test_preserves_safe {tb : Table} (h : Safe tb.states) (j : Fin 5) :
    Safe (test tb j).states := by
  unfold test
  split
  · rename_i hg
    obtain ⟨hj, hl, hr⟩ := hg
    intro i hi
    simp only [Function.update_apply] at hi ⊢
    by_cases hij : i = j
    · subst hij
      rw [if_neg (left_ne_self i), if_neg (right_ne_self i)]
      exact ⟨hl, hr⟩
    · rw [if_neg hij] at hi
      obtain ⟨hil, hir⟩ := h i hi
      constructor
      · by_cases hlj : left i = j
        · exfalso
          have : i = right j := (left_eq_iff i j).mp hlj
          rw [this] at hi
          exact hr hi
        · rw [if_neg hlj]
          exact hil
      · by_cases hrj : right i = j
        · exfalso
          have : i = left j := (right_eq_iff i j).mp hrj
          rw [this] at hi
          exact hl hi
        · rw [if_neg hrj]
          exact hir
  · exact h

lemma update_non_eating_safe {st : Fin 5 → PState} (h : Safe st) (i : Fin 5)
    (v : PState) (hv : v ≠ PState.EATING) :
    Safe (Function.update st i v) := by
  intro k hk
  simp only [Function.update_apply] at hk ⊢
  by_cases hki : k = i
  · subst hki
    rw [if_pos rfl] at hk
    exact absurd hk hv
  · rw [if_neg hki] at hk
    obtain ⟨h1, h2⟩ := h k hk
    constructor
    · by_cases hl : left k = i
      · rw [if_pos hl]
        exact hv
      · rw [if_neg hl]
        exact h1
    · by_cases hr : right k = i
      · rw [if_pos hr]
        exact hv
      · rw [if_neg hr]
        exact h2

lemma PhilStep_preserves {s s' : TableSys} (h : Safe s.tb.states)
    (hstep : PhilStep s s') : Safe s'.tb.states := by
  cases hstep with
  | draw i hi => exact h
  | enter i hi =>
      have h1 : Safe (Function.update s.tb.states i PState.HUNGRY) :=
        update_non_eating_safe h i PState.HUNGRY (by decide)
      unfold getforks_enter
      by_cases hc : s.ticket i = s.tb.serving_now
      · simp only [hc, if_pos]
        exact test_preserves_safe h1 i
      · simp only [hc, if_neg, ite_false]
        exact h1
  | retry i hi =>
      unfold getforks_retry
      by_cases hc : s.ticket i = s.tb.serving_now
      · simp only [hc, if_pos]
        exact test_preserves_safe h i
      · simp only [hc, if_neg, ite_false]
        exact h
  | rel i hi =>
      have h1 : Safe (Function.update s.tb.states i PState.THINKING) :=
        update_non_eating_safe h i PState.THINKING (by decide)
      exact test_preserves_safe (test_preserves_safe h1 (left i)) (right i)

lemma PhilReach_safe {s : TableSys} (h : PhilReach s) : Safe s.tb.states := by
  induction h with
  | refl =>
      intro i hi
      exact absurd hi (by simp [sys_init, table_init])
  | tail _ hstep ih => exact PhilStep_preserves ih hstep

/-- Concrete scenario of the spec (§8): philosophers 0..4 draw tickets
0,1,2,3,4 in that order. -/
def trace_draws : TableSys :=
  get_ticket (get_ticket (get_ticket (get_ticket (get_ticket sys_init 0) 1) 2) 3) 4

/-- All five philosophers then call `getforks` in index order and run
their first admission check. -/
def trace_hungry : TableSys :=
  getforks_enter (getforks_enter (getforks_enter (getforks_enter
    (getforks_enter trace_draws 0) 1) 2) 3) 4

/-- Philosopher 0 (ticket 0) then releases its forks. -/
def trace_after_rel0 : TableSys := relforks trace_hungry 0

end Phil

/-! ### Helper lemmas shared by the claim theorems -/

namespace BridgeM

lemma bridge_exit_cars (b : Bridge) (d : Direction) :
    (bridge_exit b d).1.cars_on_bridge = b.cars_on_bridge - 1 := by
  rw [bridge_exit_fst]
  split <;> rfl

lemma bridge_exit_eq_idle_north (b : Bridge) (h : b.cars_on_bridge - 1 = 0) :
    bridge_exit b Direction.NORTH =
      ({ b with
          cars_on_bridge := b.cars_on_bridge - 1
          current_direction := Direction.NONE
          last_direction := Direction.NORTH },
        if 0 < b.south_waiting then WakeTarget.broadcast_south
        else WakeTarget.broadcast_north) := by
  unfold bridge_exit
  by_cases hw : 0 < b.south_waiting <;> simp [h, hw]

lemma bridge_exit_eq_idle_south (b : Bridge) (h : b.cars_on_bridge - 1 = 0) :
    bridge_exit b Direction.SOUTH =
      ({ b with
          cars_on_bridge := b.cars_on_bridge - 1
          current_direction := Direction.NONE
          last_direction := Direction.SOUTH },
        if 0 < b.north_waiting then WakeTarget.broadcast_north
        else WakeTarget.broadcast_south) := by
  unfold bridge_exit
  by_cases hw : 0 < b.north_waiting <;> simp [h, hw]

/-- Reachable demo state: one north-bound car registered and admitted. -/
def bsys_demo1 : BridgeSys :=
  { bsys_init with br := bridge_enter_register bsys_init.br Direction.NORTH }

/-- Reachable demo state: the registered car is on the bridge. -/
def bsys_demo2 : BridgeSys :=
  { br := (bridge_enter_try bsys_demo1.br Direction.NORTH).2
    north_on := bsys_demo1.north_on + (if Direction.NORTH = Direction.NORTH then 1 else 0)
    south_on := bsys_demo1.south_on + (if Direction.NORTH = Direction.SOUTH then 1 else 0) }

lemma bsys_demo2_reach : BReach bsys_demo2 :=
  Relation.ReflTransGen.tail
    (Relation.ReflTransGen.single
      (BridgeStep.register bsys_init Direction.NORTH (Or.inl rfl)))
    (BridgeStep.enter bsys_demo1 Direction.NORTH (Or.inl rfl) (by decide) (by decide))

end BridgeM

namespace Bath

lemma woman_exit_fst_men (ub : UnisexBathroom) :
    (woman_exit ub).1.men_inside = ub.men_inside := by
  rw [woman_exit_fst]
  split <;> rfl

lemma woman_exit_fst_women (ub : UnisexBathroom) :
    (woman_exit ub).1.women_inside = ub.women_inside - 1 := by
  rw [woman_exit_fst]
  split <;> rfl

lemma woman_exit_eq_idle (ub : UnisexBathroom) (hm : ub.men_inside = 0)
    (hw : ub.women_inside - 1 = 0) :
    woman_exit ub =
      ({ ub with women_inside := ub.women_inside - 1, last_gender := Gender.WOMAN },
        if 0 < ub.men_waiting then WakeTargetU.broadcast_men
        else WakeTargetU.broadcast_women) := by
  unfold woman_exit
  by_cases h : 0 < ub.men_waiting <;> simp [hm, hw, h]

/-- Reachable demo state: one man registered. -/
def bath_demo1 : UnisexBathroom := man_enter_register bathroom_init

/-- Reachable demo state: the registered man is inside. -/
def bath_demo2 : UnisexBathroom := (man_enter_try bath_demo1).2

lemma bath_demo2_reach : UReach bath_demo2 :=
  Relation.ReflTransGen.tail
    (Relation.ReflTransGen.single (BathStep.man_register bathroom_init))
    (BathStep.man_admit bath_demo1 (by decide) (by decide))

end Bath

namespace Fuel

/-- Reachable demo state: one vehicle has docked. -/
def fs_demo : FSSys :=
  { fs := (fs_arrive fssys_init.fs).2, docked := fssys_init.docked + 1 }

lemma fs_demo_reach : FSReach fs_demo :=
  Relation.ReflTransGen.single (FSStep.arrive fssys_init (by decide))

end Fuel

namespace Repair

/-- Reachable demo state: one type-A vehicle admitted for repair. -/
def rs_demo : RepairStation := (rs_request_repair repair_station_init VehicleType.TYPE_A).2

lemma rs_demo_reach : RSReach rs_demo :=
  Relation.ReflTransGen.single
    (RSStep.request repair_station_init VehicleType.TYPE_A (by decide))

end Repair

namespace Pot

/-- Reachable demo state: one portion added to a capacity-3 pot. -/
def pot_demo : HoneyPot := (pot_add_honey (pot_init 3)).2

lemma pot_demo_reach : PotReach 3 pot_demo :=
  Relation.ReflTransGen.single (PotStep.add (pot_init 3) (by decide))

/-- Reachable full capacity-2 pot, used to exercise the eat step. -/
def pot_full2 : HoneyPot := (pot_add_honey (pot_add_honey (pot_init 2)).2).2

lemma pot_full2_reach : PotReach 2 pot_full2 :=
  Relation.ReflTransGen.tail
    (Relation.ReflTransGen.single (PotStep.add (pot_init 2) (by decide)))
    (PotStep.add (pot_add_honey (pot_init 2)).2 (by decide))

end Pot

namespace Phil

lemma trace_draws_reach : PhilReach trace_draws :=
  Relation.ReflTransGen.tail
    (Relation.ReflTransGen.tail
      (Relation.ReflTransGen.tail
        (Relation.ReflTransGen.tail
          (Relation.ReflTransGen.single (PhilStep.draw sys_init 0 (by decide)))
          (PhilStep.draw (get_ticket sys_init 0) 1 (by decide)))
        (PhilStep.draw (get_ticket (get_ticket sys_init 0) 1) 2 (by decide)))
      (PhilStep.draw (get_ticket (get_ticket (get_ticket sys_init 0) 1) 2) 3 (by decide)))
    (PhilStep.draw (get_ticket (get_ticket (get_ticket (get_ticket sys_init 0) 1) 2) 3) 4
      (by decide))

lemma trace_hungry_reach : PhilReach trace_hungry :=
  Relation.ReflTransGen.tail
    (Relation.ReflTransGen.tail
      (Relation.ReflTransGen.tail
        (Relation.ReflTransGen.tail
          (Relation.ReflTransGen.tail trace_draws_reach
            (PhilStep.enter trace_draws 0 (by decide)))
          (PhilStep.enter (getforks_enter trace_draws 0) 1 (by decide)))
        (PhilStep.enter (getforks_enter (getforks_enter trace_draws 0) 1) 2 (by decide)))
      (PhilStep.enter
        (getforks_enter (getforks_enter (getforks_enter trace_draws 0) 1) 2) 3 (by decide)))
    (PhilStep.enter
      (getforks_enter (getforks_enter (getforks_enter (getforks_enter trace_draws 0) 1) 2) 3)
      4 (by decide))

lemma trace_after_rel0_reach : PhilReach trace_after_rel0 :=
  Relation.ReflTransGen.tail trace_hungry_reach
    (PhilStep.rel trace_hungry 0 (by decide))

end Phil

/-- Demo bridge state for the C6 witness: one north-bound car on the
bridge, two south-bound cars waiting. -/
def bridge_c6_demo : BridgeM.Bridge :=
  { cars_on_bridge := 1
    current_direction := BridgeM.Direction.NORTH
    north_waiting := 0
    south_waiting := 2
    last_direction := BridgeM.Direction.NONE }

/-- Demo bathroom state for the C6 witness: one woman inside, three men
waiting. -/
def bath_c6_demo : Bath.UnisexBathroom :=
  { men_inside := 0
    women_inside := 1
    men_waiting := 3
    women_waiting := 0
    last_gender := Bath.Gender.NONE_GENDER }

/-! ### Claim theorems -/

/-- C1: for every reachable state of the fuel-station, repair-station and
honey-pot monitors (under any sequence of request/admit/release/deposit
critical sections), every resource dimension satisfies
`0 ≤ available ≤ capacity`, and for the class-based repair pool every
class count is at most its class capacity while the total count is at
most the total capacity, simultaneously. -/
theorem capacity_invariant_holds :
    (∀ s : Fuel.FSSys, Fuel.FSReach s → Fuel.FSInv s) ∧
    (∀ rs : Repair.RepairStation, Repair.RSReach rs → Repair.RSInv rs) ∧
    (∀ (c : Int) (pot : Pot.HoneyPot), 0 < c → Pot.PotReach c pot → Pot.PotInv c pot) :=
  ⟨fun _ h => (Fuel.FSReach_inv h).1,
   fun _ h => Repair.RSReach_inv h,
   fun _ _ hc h => Pot.PotReach_inv (le_of_lt hc) h⟩

/-- Witness for C1: the invariant evaluated at concrete reachable states
(one docked vehicle; one type-A vehicle in repair; one portion in a
capacity-3 pot). -/
theorem capacity_invariant_holds_witness :
    Fuel.FSInv Fuel.fs_demo ∧ Repair.RSInv Repair.rs_demo ∧ Pot.PotInv 3 Pot.pot_demo :=
  ⟨capacity_invariant_holds.1 Fuel.fs_demo Fuel.fs_demo_reach,
   capacity_invariant_holds.2.1 Repair.rs_demo Repair.rs_demo_reach,
   capacity_invariant_holds.2.2 3 Pot.pot_demo (by decide) Pot.pot_demo_reach⟩

/-- C2: in every reachable state of the one-lane bridge and of the unisex
bathroom, at most one of the two mutually exclusive classes is present
inside: `min(count_A, count_B) = 0`. -/
theorem mutual_exclusion_min_zero :
    (∀ s : BridgeM.BridgeSys, BridgeM.BReach s → min s.north_on s.south_on = 0) ∧
    (∀ ub : Bath.UnisexBathroom, Bath.UReach ub → min ub.men_inside ub.women_inside = 0) :=
  ⟨fun _ h => BridgeM.BReach_mutex h, fun _ h => Bath.UReach_mutex h⟩

/-- Witness for C2: the property evaluated at concrete reachable states
(one north-bound car on the bridge; one man in the bathroom). -/
theorem mutual_exclusion_min_zero_witness :
    min BridgeM.bsys_demo2.north_on BridgeM.bsys_demo2.south_on = 0 ∧
    min Bath.bath_demo2.men_inside Bath.bath_demo2.women_inside = 0 :=
  ⟨mutual_exclusion_min_zero.1 BridgeM.bsys_demo2 BridgeM.bsys_demo2_reach,
   mutual_exclusion_min_zero.2 Bath.bath_demo2 Bath.bath_demo2_reach⟩

/-- C3 (code bug): the Ticket policy of `dining_philosophers.c` is not
strictly FCFS, contradicting the file's own header comment ("prevents a
philosopher from jumping the queue … ensuring strict FCFS ordering").
In the reachable state `trace_after_rel0` — philosophers 0..4 drew
tickets 0..4 in order, all became hungry, philosopher 0 ate and released
— `relforks` admitted philosopher 4 (ticket 4) via the un-ticketed
neighbour `test`, while the adjacent philosopher 3 (ticket 3, contending
for the fork shared by 3 and 4) is still waiting: a later arrival
proceeded before an earlier waiting arrival with overlapping resources. -/
theorem fcfs_violated_by_release_test :
    Phil.PhilReach Phil.trace_after_rel0 ∧
    Phil.trace_after_rel0.ticket 3 = 3 ∧
    Phil.trace_after_rel0.ticket 4 = 4 ∧
    Phil.right 3 = 4 ∧
    Phil.trace_after_rel0.tb.states 4 = Phil.PState.EATING ∧
    Phil.trace_after_rel0.tb.states 3 = Phil.PState.HUNGRY :=
  ⟨Phil.trace_after_rel0_reach, by decide, by decide, by decide, by decide, by decide⟩

/-- C4: the admission critical section of `fs_get_fuel` and
`rs_request_repair` checks that every dimension can be decremented (for
the repair station: the per-class and total limits jointly); on success
it decrements every requested dimension in the same atomic step, and on
failure it performs no mutation of the pool state. -/
theorem try_admit_check_and_mutate :
    (∀ (fs : Fuel.FuelStation) (rn rq : Int),
      ((Fuel.fs_get_fuel fs rn rq).1 = true ↔
        rn ≤ fs.available_nitrogen ∧ rq ≤ fs.available_quantum_fluid) ∧
      ((Fuel.fs_get_fuel fs rn rq).1 = true →
        (Fuel.fs_get_fuel fs rn rq).2 =
          { fs with
            available_nitrogen := fs.available_nitrogen - rn
            available_quantum_fluid := fs.available_quantum_fluid - rq }) ∧
      ((Fuel.fs_get_fuel fs rn rq).1 = false → (Fuel.fs_get_fuel fs rn rq).2 = fs)) ∧
    (∀ (rs : Repair.RepairStation) (t : Repair.VehicleType),
      ((Repair.rs_request_repair rs t).1 = true ↔
        rs.count_A + rs.count_B + rs.count_C < Repair.MAX_TOTAL_VEHICLES ∧
        Repair.countOf rs t < Repair.maxOf t) ∧
      ((Repair.rs_request_repair rs t).1 = true →
        (Repair.rs_request_repair rs t).2 = Repair.bumpCount rs t) ∧
      ((Repair.rs_request_repair rs t).1 = false →
        (Repair.rs_request_repair rs t).2 = rs)) :=
  ⟨fun fs rn rq =>
    ⟨Fuel.fs_get_fuel_true_iff fs rn rq,
     fun h => Fuel.fs_get_fuel_snd_of_true fs rn rq
       ((Fuel.fs_get_fuel_true_iff fs rn rq).mp h),
     Fuel.fs_get_fuel_snd_of_false fs rn rq⟩,
   fun rs t =>
    ⟨Repair.rs_request_repair_true_iff rs t,
     Repair.rs_request_repair_snd_of_true rs t,
     Repair.rs_request_repair_snd_of_false rs t⟩⟩

/-- Witness for C4: a successful fuel grab decrements both fuel
dimensions, and a successful type-B admission bumps the B counter. -/
theorem try_admit_check_and_mutate_witness :
    (Fuel.fs_get_fuel Fuel.fuel_station_init 100 200).2 =
      { available_nitrogen := 4900, available_quantum_fluid := 1800, available_docks := 5 } ∧
    (Repair.rs_request_repair Repair.repair_station_init Repair.VehicleType.TYPE_B).2 =
      { count_A := 0, count_B := 1, count_C := 0 } := by
  constructor
  · have h := (try_admit_check_and_mutate.1 Fuel.fuel_station_init 100 200).2.1 (by decide)
    rw [h]
    decide
  · have h := (try_admit_check_and_mutate.2 Repair.repair_station_init
      Repair.VehicleType.TYPE_B).2.1 (by decide)
    rw [h]
    decide

/-- C5 counterexample: in the claimed scenario (philosophers 0..4 draw
tickets 0..4 in order and all become hungry), ticket 2 is NOT admitted
immediately: after all five admission checks philosopher 2 is still
`HUNGRY` (blocked), because `getforks` only runs `test` for the
philosopher whose ticket equals `serving_now` (= 0), and a retry of
philosopher 2 leaves the state unchanged. -/
theorem ticket2_not_admitted_immediately :
    Phil.trace_hungry.ticket 0 = 0 ∧
    Phil.trace_hungry.ticket 2 = 2 ∧
    Phil.trace_hungry.tb.serving_now = 0 ∧
    Phil.trace_hungry.tb.states 0 = Phil.PState.EATING ∧
    Phil.trace_hungry.tb.states 2 = Phil.PState.HUNGRY ∧
    (∀ j : Fin 5, (Phil.getforks_retry Phil.trace_hungry 2).tb.states j =
      Phil.trace_hungry.tb.states j) :=
  ⟨by decide, by decide, by decide, by decide, by decide, by decide⟩

/-- C5 amended: in the 5-philosopher scenario where philosophers 0..4
draw tickets 0..4 in order and all become hungry, only ticket 0 is
admitted immediately and tickets 1-4 block; after ticket 0 releases its
forks, tickets 4 and 1 are both admitted inside that release (the left
neighbour 4 is tested first, then the right neighbour 1), while tickets
2 and 3 remain blocked. -/
theorem ticket_trace_actual :
    (Phil.trace_hungry.tb.states 0 = Phil.PState.EATING ∧
     Phil.trace_hungry.tb.states 1 = Phil.PState.HUNGRY ∧
     Phil.trace_hungry.tb.states 2 = Phil.PState.HUNGRY ∧
     Phil.trace_hungry.tb.states 3 = Phil.PState.HUNGRY ∧
     Phil.trace_hungry.tb.states 4 = Phil.PState.HUNGRY) ∧
    (Phil.trace_after_rel0.tb.states 0 = Phil.PState.THINKING ∧
     Phil.trace_after_rel0.tb.states 1 = Phil.PState.EATING ∧
     Phil.trace_after_rel0.tb.states 2 = Phil.PState.HUNGRY ∧
     Phil.trace_after_rel0.tb.states 3 = Phil.PState.HUNGRY ∧
     Phil.trace_after_rel0.tb.states 4 = Phil.PState.EATING) := by
  exact ⟨⟨by decide, by decide, by decide, by decide, by decide⟩,
    ⟨by decide, by decide, by decide, by decide, by decide⟩⟩

/-- C6: under the alternating-priority monitors, every release that
leaves the resource fully idle wakes exactly the opposite class's waiters
when that class has at least one waiter; otherwise it wakes the
same-class waiters, and when neither class has waiters nobody is woken
(extensionally, the opposite class's empty waiter set). -/
theorem alternating_release_signal :
    (∀ (b : BridgeM.Bridge) (d : BridgeM.Direction),
      (d = BridgeM.Direction.NORTH ∨ d = BridgeM.Direction.SOUTH) →
      0 ≤ b.north_waiting → 0 ≤ b.south_waiting →
      (BridgeM.bridge_exit b d).1.cars_on_bridge = 0 →
      (1 ≤ BridgeM.waitingOf b (BridgeM.opposite d) →
        BridgeM.wokenOfClass (BridgeM.bridge_exit b d).1 (BridgeM.bridge_exit b d).2
            (BridgeM.opposite d) = BridgeM.waitingOf b (BridgeM.opposite d) ∧
        BridgeM.wokenOfClass (BridgeM.bridge_exit b d).1 (BridgeM.bridge_exit b d).2 d = 0) ∧
      (BridgeM.waitingOf b (BridgeM.opposite d) = 0 →
        BridgeM.wokenOfClass (BridgeM.bridge_exit b d).1 (BridgeM.bridge_exit b d).2 d =
          BridgeM.waitingOf b d ∧
        BridgeM.wokenOfClass (BridgeM.bridge_exit b d).1 (BridgeM.bridge_exit b d).2
            (BridgeM.opposite d) = 0) ∧
      (BridgeM.waitingOf b (BridgeM.opposite d) = 0 → BridgeM.waitingOf b d = 0 →
        BridgeM.wokenB (BridgeM.bridge_exit b d).1 (BridgeM.bridge_exit b d).2 = (0, 0))) ∧
    (∀ ub : Bath.UnisexBathroom,
      0 ≤ ub.men_waiting → 0 ≤ ub.women_waiting →
      (Bath.woman_exit ub).1.men_inside = 0 →
      (Bath.woman_exit ub).1.women_inside = 0 →
      (1 ≤ ub.men_waiting →
        Bath.wokenU (Bath.woman_exit ub).1 (Bath.woman_exit ub).2 = (ub.men_waiting, 0)) ∧
      (ub.men_waiting = 0 →
        Bath.wokenU (Bath.woman_exit ub).1 (Bath.woman_exit ub).2 = (0, ub.women_waiting)) ∧
      (ub.men_waiting = 0 → ub.women_waiting = 0 →
        Bath.wokenU (Bath.woman_exit ub).1 (Bath.woman_exit ub).2 = (0, 0))) := by
  constructor
  · intro b d hd hn hs hidle
    rw [BridgeM.bridge_exit_cars] at hidle
    rcases hd with rfl | rfl
    · rw [BridgeM.bridge_exit_eq_idle_north b hidle]
      by_cases hw : 0 < b.south_waiting
      · rw [if_pos hw]
        refine ⟨?_, ?_, ?_⟩
        · intro _
          exact ⟨rfl, rfl⟩
        · intro hz
          exfalso
          simp [BridgeM.waitingOf, BridgeM.opposite] at hz
          omega
        · intro hz _
          exfalso
          simp [BridgeM.waitingOf, BridgeM.opposite] at hz
          omega
      · rw [if_neg hw]
        refine ⟨?_, ?_, ?_⟩
        · intro hopp
          exfalso
          simp [BridgeM.waitingOf, BridgeM.opposite] at hopp
          omega
        · intro _
          exact ⟨rfl, rfl⟩
        · intro _ hsame
          simp [BridgeM.waitingOf] at hsame
          simp [BridgeM.wokenB, hsame]
    · rw [BridgeM.bridge_exit_eq_idle_south b hidle]
      by_cases hw : 0 < b.north_waiting
      · rw [if_pos hw]
        refine ⟨?_, ?_, ?_⟩
        · intro _
          exact ⟨rfl, rfl⟩
        · intro hz
          exfalso
          simp [BridgeM.waitingOf, BridgeM.opposite] at hz
          omega
        · intro hz _
          exfalso
          simp [BridgeM.waitingOf, BridgeM.opposite] at hz
          omega
      · rw [if_neg hw]
        refine ⟨?_, ?_, ?_⟩
        · intro hopp
          exfalso
          simp [BridgeM.waitingOf, BridgeM.opposite] at hopp
          omega
        · intro _
          exact ⟨rfl, rfl⟩
        · intro _ hsame
          simp [BridgeM.waitingOf] at hsame
          simp [BridgeM.wokenB, hsame]
  · intro ub hmw hww hm hw
    rw [Bath.woman_exit_fst_men] at hm
    rw [Bath.woman_exit_fst_women] at hw
    rw [Bath.woman_exit_eq_idle ub hm hw]
    by_cases h : 0 < ub.men_waiting
    · rw [if_pos h]
      refine ⟨fun _ => rfl, ?_, ?_⟩
      · intro hz
        exfalso
        omega
      · intro hz _
        exfalso
        omega
    · rw [if_neg h]
      refine ⟨?_, fun _ => rfl, ?_⟩
      · intro h1
        exfalso
        omega
      · intro _ hz
        simp [Bath.wokenU, hz]

/-- Witness for C6: releasing the last north-bound car with two
south-bound waiters wakes exactly the south waiters; the last woman
leaving with three men waiting wakes exactly the men. -/
theorem alternating_release_signal_witness :
    (BridgeM.wokenOfClass (BridgeM.bridge_exit bridge_c6_demo BridgeM.Direction.NORTH).1
        (BridgeM.bridge_exit bridge_c6_demo BridgeM.Direction.NORTH).2
        (BridgeM.opposite BridgeM.Direction.NORTH) =
      BridgeM.waitingOf bridge_c6_demo (BridgeM.opposite BridgeM.Direction.NORTH) ∧
     BridgeM.wokenOfClass (BridgeM.bridge_exit bridge_c6_demo BridgeM.Direction.NORTH).1
        (BridgeM.bridge_exit bridge_c6_demo BridgeM.Direction.NORTH).2
        BridgeM.Direction.NORTH = 0) ∧
    Bath.wokenU (Bath.woman_exit bath_c6_demo).1 (Bath.woman_exit bath_c6_demo).2 =
      (bath_c6_demo.men_waiting, 0) :=
  ⟨(alternating_release_signal.1 bridge_c6_demo BridgeM.Direction.NORTH (Or.inl rfl)
      (by decide) (by decide) (by decide)).1 (by decide),
   (alternating_release_signal.2 bath_c6_demo (by decide) (by decide) (by decide)
      (by decide)).1 (by decide)⟩

/-- C7 counterexample: construction does not validate its parameters.
`pot_init` accepts a non-positive capacity and succeeds (there is no
failing construction path in the code), and `repair_station_init` takes
no parameters and performs no per-class-versus-total validation at all
(the constraint is only stated in a source comment). -/
theorem construction_does_not_validate :
    Pot.pot_init (-3) = { capacity := -3, honey_portions := 0 } ∧
    Repair.repair_station_init = { count_A := 0, count_B := 0, count_C := 0 } :=
  ⟨rfl, rfl⟩

/-- C7 amended: the construction functions never fail and never
validate; the only parameter validation is the command-line check in
`main` of `bear_and_bees_monitor.c`, which rejects a non-positive pot
capacity (and non-positive bee/round counts) before the pot is
constructed and before any agent thread is started. -/
theorem construction_validation_amended :
    (∀ c : Int, Pot.pot_init c = { capacity := c, honey_portions := 0 }) ∧
    (∀ b c r : Int, c ≤ 0 → Pot.bear_main_args_ok b c r = false) ∧
    (∀ b c r : Int, Pot.bear_main_args_ok b c r = true → 0 < b ∧ 0 < c ∧ 0 < r) := by
  refine ⟨fun c => rfl, ?_, ?_⟩
  · intro b c r hc
    simp [Pot.bear_main_args_ok]
    omega
  · intro b c r h
    simp [Pot.bear_main_args_ok] at h
    omega

/-- Witness for C7 amended: capacity 0 is rejected by the `main` check;
the all-positive configuration (1, 2, 3) passes it. -/
theorem construction_validation_amended_witness :
    Pot.bear_main_args_ok 5 0 7 = false ∧
    ((0 : Int) < 1 ∧ (0 : Int) < 2 ∧ (0 : Int) < 3) :=
  ⟨construction_validation_amended.2.1 5 0 7 (by decide),
   construction_validation_amended.2.2 1 2 3 (by decide)⟩

/-- C8 counterexample: a release with no matching prior request is NOT
caught by any assertion or diagnostic — it is silently applied.
`fs_leave` on the freshly constructed (full) station pushes
`available_docks` to 6, above the capacity of 5, and
`rs_release_from_repair` on the empty repair station drives `count_A`
to -1; neither function has any guard or assertion. -/
theorem release_violation_silently_applied :
    (Fuel.fs_leave Fuel.fuel_station_init).available_docks = 6 ∧
    Fuel.MAX_DOCKING_SPOTS < (Fuel.fs_leave Fuel.fuel_station_init).available_docks ∧
    (Repair.rs_release_from_repair Repair.repair_station_init
      Repair.VehicleType.TYPE_A).count_A = -1 :=
  ⟨by decide, by decide, by decide⟩

/-- C8 amended: `release` never fails (it is total and unconditional for
every state, including protocol-violating ones): `fs_leave` always
increments the dock counter and `rs_release_from_repair` always
decrements the class counter, with no assertion or diagnostic — a
violation that pushes `available` above `capacity` is silently applied. -/
theorem release_is_unconditional :
    (∀ fs : Fuel.FuelStation,
      Fuel.fs_leave fs = { fs with available_docks := fs.available_docks + 1 }) ∧
    (∀ (rs : Repair.RepairStation) (t : Repair.VehicleType),
      Repair.countOf (Repair.rs_release_from_repair rs t) t = Repair.countOf rs t - 1) ∧
    (Fuel.fs_leave Fuel.fuel_station_init).available_docks =
      Fuel.MAX_DOCKING_SPOTS + 1 := by
  refine ⟨fun fs => rfl, ?_, by decide⟩
  intro rs t
  cases t <;> rfl

/-- C9: in every reachable state of the dining-philosophers table, no
two adjacent philosophers are simultaneously `EATING`: the state is set
to `EATING` only in `test`, whose guard requires both neighbours to be
not `EATING` under the monitor's lock. -/
theorem no_adjacent_eating :
    ∀ s : Phil.TableSys, Phil.PhilReach s → Phil.Safe s.tb.states :=
  fun _ h => Phil.PhilReach_safe h

/-- Witness for C9: safety evaluated at the concrete reachable state
after philosopher 0's release (philosophers 1 and 4 eating). -/
theorem no_adjacent_eating_witness : Phil.Safe Phil.trace_after_rel0.tb.states :=
  no_adjacent_eating Phil.trace_after_rel0 Phil.trace_after_rel0_reach

/-- C10: in the bear-and-bees monitor the bear only ever eats a full
pot: every completed `pot_eat_honey` critical section starts from a
reachable state with `honey_portions = capacity` and ends with
`honey_portions = 0`, so the bear consumes exactly `capacity` portions
per meal. -/
theorem bear_eats_full_pot :
    ∀ (c : Int) (pot : Pot.HoneyPot), 0 < c → Pot.PotReach c pot →
      (Pot.pot_eat_honey pot).1 = true →
      pot.honey_portions = pot.capacity ∧ pot.capacity = c ∧
      (Pot.pot_eat_honey pot).2.honey_portions = 0 := by
  intro c pot hc hreach hg
  obtain ⟨hcap, h0, h1⟩ := Pot.PotReach_inv (le_of_lt hc) hreach
  rw [Pot.pot_eat_honey_true_iff] at hg
  refine ⟨by omega, hcap, ?_⟩
  rw [Pot.pot_eat_honey_snd_of_true pot hg]

/-- Witness for C10: the bear's eat step on the reachable full
capacity-2 pot starts at 2 = capacity portions and empties the pot. -/
theorem bear_eats_full_pot_witness :
    Pot.pot_full2.honey_portions = Pot.pot_full2.capacity ∧
    Pot.pot_full2.capacity = 2 ∧
    (Pot.pot_eat_honey Pot.pot_full2).2.honey_portions = 0 :=
  bear_eats_full_pot 2 Pot.pot_full2 (by decide) Pot.pot_full2_reach (by decide)
